import Mathlib

/-!
Shallow embedding of `proxy/server.go` from alphabetY/goflyway2.

The Go source is a tunneling-proxy control plane: an HTTP-level request
dispatcher (`ServeHTTP`), a WebSocket/plain success-response writer
(`replyGood`), a multi-user auth check (`auth`), and the LocalRP
(reverse-tunnel) controller (`startLocalRPControlServer`) with its
routing loop, waiting map and heartbeat teardown.

Pure computations (byte framing, hex, base64, SHA-1) are embedded as
executable Lean functions; the stateful parts are embedded as explicit
state-passing functions over a `LocalRPState` record mirroring the
`proxy.localRP` struct, with the nondeterministic inputs (random token
bytes, which select arm fires, chosen agent index) passed as parameters,
and with observable side effects (socket writes, channel sends) returned
as explicit event lists.
-/

namespace Goflyway

/-! ### Byte-level utilities used by the source

`binary.BigEndian.PutUint32`, `fmt.Sprintf("%x", …)`,
`base64.StdEncoding.EncodeToString`, `sha1.Sum`. -/

/-- A byte is a `Nat`; functions below only produce values `< 256`. -/
abbrev Byte := Nat

/-- `binary.BigEndian.PutUint32 buf[16:20] (uint32 n)`: the four
big-endian bytes of `n` truncated to 32 bits. -/
def be32 (n : Nat) : List Byte :=
  let m := n % 2 ^ 32
  [m / 2 ^ 24 % 256, m / 2 ^ 16 % 256, m / 2 ^ 8 % 256, m % 256]

/-- One lowercase hex digit. -/
def hexDigit (n : Nat) : Char :=
  if n < 10 then Char.ofNat (48 + n) else Char.ofNat (87 + n)

/-- `fmt.Sprintf("%x", bytes)`: two lowercase hex digits per byte. -/
def hexEncode (bs : List Byte) : String :=
  String.mk (bs.foldr (fun b acc => hexDigit (b / 16 % 16) :: hexDigit (b % 16) :: acc) [])

/-- The standard base64 alphabet, `A-Za-z0-9+/`. -/
def base64Char (n : Nat) : Char :=
  if n < 26 then Char.ofNat (65 + n)
  else if n < 52 then Char.ofNat (97 + (n - 26))
  else if n < 62 then Char.ofNat (48 + (n - 52))
  else if n = 62 then '+' else '/'

/-- `base64.StdEncoding.EncodeToString`: groups of three bytes become
four alphabet characters; a trailing group of one or two bytes is padded
with `=`. -/
def base64Encode : List Byte → String
  | [] => ""
  | [b1] =>
      String.mk [base64Char (b1 / 4), base64Char (b1 % 4 * 16), '=', '=']
  | [b1, b2] =>
      String.mk [base64Char (b1 / 4), base64Char (b1 % 4 * 16 + b2 / 16),
                 base64Char (b2 % 16 * 4), '=']
  | b1 :: b2 :: b3 :: rest =>
      String.mk [base64Char (b1 / 4), base64Char (b1 % 4 * 16 + b2 / 16),
                 base64Char (b2 % 16 * 4 + b3 / 64), base64Char (b3 % 64)]
        ++ base64Encode rest

/-! SHA-1 (`crypto/sha1.Sum`), over 32-bit words carried as `Nat`
reduced mod `2 ^ 32`. -/

/-- 32-bit left rotation. -/
def rotl32 (x k : Nat) : Nat :=
  (x * 2 ^ k + x / 2 ^ (32 - k)) % 2 ^ 32

/-- One SHA-1 round function by round group. -/
def sha1F (t b c d : Nat) : Nat :=
  if t < 20 then (b &&& c) ||| ((2 ^ 32 - 1 - b) &&& d)
  else if t < 40 then b ^^^ c ^^^ d
  else if t < 60 then (b &&& c) ||| (b &&& d) ||| (c &&& d)
  else b ^^^ c ^^^ d

/-- Per-group SHA-1 round constant. -/
def sha1K (t : Nat) : Nat :=
  if t < 20 then 0x5A827999
  else if t < 40 then 0x6ED9EBA1
  else if t < 60 then 0x8F1BBCDC
  else 0xCA62C1D6

/-- Message-schedule expansion: given the schedule so far (reversed,
newest first), produce word `t`. -/
def sha1Expand (w : List Nat) : Nat :=
  rotl32 ((w.getD 2 0) ^^^ (w.getD 7 0) ^^^ (w.getD 13 0) ^^^ (w.getD 15 0)) 1

/-- The 80-word schedule for one block, reversed (word 79 first). -/
def sha1Schedule : Nat → List Nat → List Nat
  | 0, w => w
  | n + 1, w => sha1Schedule n (sha1Expand w :: w)

/-- One compression round. -/
def sha1Round (t : Nat) (wt : Nat) : Nat × Nat × Nat × Nat × Nat → Nat × Nat × Nat × Nat × Nat
  | (a, b, c, d, e) =>
      ((rotl32 a 5 + sha1F t b c d + e + sha1K t + wt) % 2 ^ 32,
       a, rotl32 b 30, c, d)

/-- Run rounds `t, t+1, …, 79` over the schedule words in order. -/
def sha1Rounds : Nat → List Nat → Nat × Nat × Nat × Nat × Nat → Nat × Nat × Nat × Nat × Nat
  | _, [], st => st
  | t, wt :: ws, st => sha1Rounds (t + 1) ws (sha1Round t wt st)

/-- Pack four bytes into one big-endian 32-bit word. -/
def word32 : List Byte → Nat
  | b1 :: b2 :: b3 :: b4 :: _ => b1 * 2 ^ 24 + b2 * 2 ^ 16 + b3 * 2 ^ 8 + b4
  | _ => 0

/-- The 16 initial schedule words of one 64-byte block. -/
def blockWords (blk : List Byte) : List Nat :=
  (List.range 16).map (fun i => word32 (blk.drop (4 * i)))

/-- Compress one 64-byte block into the running state. -/
def sha1Block (h : Nat × Nat × Nat × Nat × Nat) (blk : List Byte) :
    Nat × Nat × Nat × Nat × Nat :=
  let w80 := (sha1Schedule 64 (blockWords blk).reverse).reverse
  let (a, b, c, d, e) := sha1Rounds 0 w80 h
  let (h0, h1, h2, h3, h4) := h
  ((h0 + a) % 2 ^ 32, (h1 + b) % 2 ^ 32, (h2 + c) % 2 ^ 32,
   (h3 + d) % 2 ^ 32, (h4 + e) % 2 ^ 32)

/-- Split a padded message into its 64-byte blocks; the fuel argument
(instantiated with the message length) makes the recursion structural. -/
def sha1Chunks : Nat → List Byte → List (List Byte)
  | 0, _ => []
  | _ + 1, [] => []
  | fuel + 1, b :: bs => (b :: bs).take 64 :: sha1Chunks fuel ((b :: bs).drop 64)

/-- Fold the compression over the 64-byte blocks. -/
def sha1Blocks (h : Nat × Nat × Nat × Nat × Nat) (bs : List Byte) :
    Nat × Nat × Nat × Nat × Nat :=
  (sha1Chunks bs.length bs).foldl sha1Block h

/-- SHA-1 padding: `0x80`, zeros to 56 mod 64, 8-byte big-endian bit length. -/
def sha1Pad (msg : List Byte) : List Byte :=
  let l := msg.length
  let zeros := (120 - (l + 1) % 64) % 64
  let bitLen := 8 * l
  msg ++ 0x80 :: List.replicate zeros 0 ++
    [bitLen / 2 ^ 56 % 256, bitLen / 2 ^ 48 % 256, bitLen / 2 ^ 40 % 256,
     bitLen / 2 ^ 32 % 256, bitLen / 2 ^ 24 % 256, bitLen / 2 ^ 16 % 256,
     bitLen / 2 ^ 8 % 256, bitLen % 256]

/-- Unpack one 32-bit word into four big-endian bytes. -/
def wordBytes (n : Nat) : List Byte :=
  [n / 2 ^ 24 % 256, n / 2 ^ 16 % 256, n / 2 ^ 8 % 256, n % 256]

/-- `sha1.Sum`: the 20-byte SHA-1 digest. -/
def sha1Sum (msg : List Byte) : List Byte :=
  let (h0, h1, h2, h3, h4) :=
    sha1Blocks (0x67452301, 0xEFCDAB89, 0x98BADCFE, 0x10325476, 0xC3D2E1F0)
      (sha1Pad msg)
  wordBytes h0 ++ wordBytes h1 ++ wordBytes h2 ++ wordBytes h3 ++ wordBytes h4

/-- UTF-8 encoding of one code point, as Go produces it for each rune
when converting a string to `[]byte`. -/
def utf8Bytes (n : Nat) : List Byte :=
  if n < 0x80 then [n]
  else if n < 0x800 then [0xC0 + n / 0x40, 0x80 + n % 0x40]
  else if n < 0x10000 then [0xE0 + n / 0x1000, 0x80 + n / 0x40 % 0x40, 0x80 + n % 0x40]
  else [0xF0 + n / 0x40000, 0x80 + n / 0x1000 % 0x40, 0x80 + n / 0x40 % 0x40, 0x80 + n % 0x40]

/-- The UTF-8 bytes of a string (`[]byte(s)` in Go). -/
def strBytes (s : String) : List Byte :=
  (s.data.map (fun c => utf8Bytes c.toNat)).flatten

/-- Go's `len(s)` on a string: its byte length. -/
def goStrLen (s : String) : Nat :=
  (strBytes s).length

/-! ### Option bitset and dispatch (`ServeHTTP`, lines 230–353)

The request option bits tested by `ServeHTTP` are `doDNS`, `doLocalRP`,
`doConnect`, `doForward` (plus `doUDPRelay`, `doMuxWS`, `doWebSocket`,
`doPartial` inside the branches). `cr.Opt.IsSet(bit)` is embedded as a
record of independent booleans, one per bit. -/

structure Options where
  doDNS : Bool
  doLocalRP : Bool
  doConnect : Bool
  doForward : Bool
  doUDPRelay : Bool
  doMuxWS : Bool
  doWebSocket : Bool
  doPartial : Bool
  deriving DecidableEq, Repr

/-- The action `ServeHTTP` commits to for a successfully decoded request. -/
inductive DispatchAction where
  | dns
  | localRP
  | connect
  | forward
  | reject
  deriving DecidableEq, Repr

/-- The `if cr.Opt.IsSet(doDNS) { … } else if cr.Opt.IsSet(doLocalRP) { … }
else if cr.Opt.IsSet(doConnect) { … } else if cr.Opt.IsSet(doForward) { … }
else { blacklist; default page }` chain of `ServeHTTP`. -/
def dispatch (o : Options) : DispatchAction :=
  if o.doDNS then .dns
  else if o.doLocalRP then .localRP
  else if o.doConnect then .connect
  else if o.doForward then .forward
  else .reject

/-! ### Multi-user auth (`auth`, lines 86–93; `ServeHTTP`, lines 217–222) -/

/-- `UserConfig` from the source: per-user fields that exist in the
config but are never read by the server logic. -/
structure UserConfig where
  auth : String
  throttling : Int
  throttlingMax : Int
  deriving DecidableEq, Repr

/-- `proxy.Users`, a Go map embedded as an association list with distinct
keys; `none` models a nil map. -/
abbrev Users := List (String × UserConfig)

/-- `func (proxy *ProxyServer) auth(auth string) bool`: comma-ok lookup
of the token in `proxy.Users`; `true` exactly when the key exists. -/
def authCheck (users : Users) (a : String) : Bool :=
  match users.lookup a with
  | some _ => true
  | none => false

/-! ### Success-response framing (`replyGood`, lines 128–144) -/

/-- The fixed RFC6455 GUID appended to the client key in `replyGood`. -/
def wsGUID : String := "258EAFA5-E914-47DA-95CA-C5AB0DC85B11"

/-- The `Sec-WebSocket-Accept` value: base64 of the SHA-1 of the client
key concatenated with the GUID (`accept.Writes(key, guid)`;
`sha1.Sum`; `base64.StdEncoding.EncodeToString`). -/
def wsAccept (key : String) : String :=
  base64Encode (sha1Sum (strBytes (key ++ wsGUID)))

/-- `replyGood`: the bytes written to the downstream connection, as a
function of the WebSocket option bit, the request's
`Sec-WebSocket-Key` header, and the formatted current date. -/
def replyGood (o : Options) (wsKey : String) (date : String) : String :=
  if o.doWebSocket then
    "HTTP/1.1 101 Switching Protocols\r\nUpgrade: websocket\r\nConnection: upgrade\r\nSec-WebSocket-Accept: "
      ++ wsAccept wsKey ++ "\r\n\r\n"
  else
    "HTTP/1.1 200 OK\r\nContent-Type: application/octet-stream\r\nDate: "
      ++ date ++ "\r\n\r\n"

/-! ### LocalRP data model (`localRPCtrlSrvReq`, `localRPCtrlSrvResp`,
`proxy.localRP`, lines 52–78)

`net.Conn` values and callback channels are identified by `Nat` ids;
the buffered `requests` channel is a list of queued entries (`none`
models a nil handle), and the `waiting` Go map is an association list
with distinct keys (`none` models a nil map). -/

structure localRPCtrlSrvReq where
  dst : String
  /-- The `end` field of the Go struct (`end` is reserved in Lean). -/
  endFlag : Bool
  conn : Nat
  callback : Nat
  rawReq : List Byte
  deriving DecidableEq, Repr

structure localRPCtrlSrvResp where
  err : Option String
  localrpr : String
  req : localRPCtrlSrvReq
  deriving DecidableEq, Repr

abbrev WaitingMap := List (String × localRPCtrlSrvResp)

structure LocalRPState where
  downstreams : List Nat
  downConns : List Nat
  requests : Option (List localRPCtrlSrvReq)
  waiting : Option WaitingMap
  deriving DecidableEq, Repr

/-- Go map assignment `m[k] = v`: replace an existing binding for `k`
or append a fresh one. -/
def mapInsert (m : WaitingMap) (k : String) (v : localRPCtrlSrvResp) : WaitingMap :=
  match m with
  | [] => [(k, v)]
  | (k', v') :: rest => if k' = k then (k, v) :: rest else (k', v') :: mapInsert rest k v

/-- The defensive scan of `ServeHTTP` lines 201–208: iterate over the
waiting map, `delete` the first entry whose `resp.req.conn` equals the
dispatcher's hijacked connection, then `break`. -/
def cleanupScan (m : WaitingMap) (userConn : Nat) : WaitingMap :=
  match m with
  | [] => []
  | (k, v) :: rest =>
      if v.req.conn = userConn then rest else (k, v) :: cleanupScan rest userConn

/-! ### AbuseGuard (`proxy.blacklist`) -/

/-- Modelled from the spec: the AbuseGuard cache is `lru.Cache` from
`github.com/alphabetY/common/lru`, outside this repository; the spec
says `record(address)` (the source's `blacklist.Add(addr, nil)`)
"increments/inserts" the address's hit count and `hits(address)` (the
source's `GetEx`) "returns the current count (0 if absent)".
Capacity-driven LRU eviction is not modelled. -/
def abuseRecord (bl : List (String × Nat)) (addr : String) : List (String × Nat) :=
  match bl with
  | [] => [(addr, 1)]
  | (a, n) :: rest => if a = addr then (a, n + 1) :: rest else (a, n) :: abuseRecord rest addr

/-- Modelled from the spec: the hit count `GetEx` reports for an
address, `0` if absent. -/
def abuseHits (bl : List (String × Nat)) (addr : String) : Nat :=
  match bl.lookup addr with
  | some n => n
  | none => 0

/-! ### The dispatcher's decode-failure path (`ServeHTTP`, lines 169–215)

Inputs that are nondeterministic at this level are parameters: `arrived`
is the outcome of the `select` — `some e?` when the callback channel
delivered a response (with error `e?`) before the `time.After` timer,
`none` when the timer fired first. Observable actions are returned as an
event list in program order. -/

inductive DFEvent where
  | hijack
  | enqueue (req : localRPCtrlSrvReq)
  /-- Blocking on the `select { case <-cb … case <-time.After … }`. -/
  | selectWait
  | write400 (msg : String)
  | write502
  /-- A further blocking receive on the callback channel after the
  timeout arm ran; the source has no such receive, so the embedding
  never emits it. -/
  | waitCallbackAgain
  /-- The locked scan-and-delete over the waiting map, lines 201–208. -/
  | cleanupDelete
  | recordAbuse (addr : String)
  | page404
  | passthrough
  deriving DecidableEq, Repr

structure ServerState where
  blacklist : List (String × Nat)
  localRP : LocalRPState
  deriving DecidableEq, Repr

/-- `replySomething` (lines 147–160): 404 page when no passthrough
(`proxy.rp`) is configured, otherwise the passthrough handler. -/
def replySomething (rpConfigured : Bool) : List DFEvent :=
  if rpConfigured then [.passthrough] else [.page404]

/-- Lines 176–215 of `ServeHTTP`: the branch taken when
`dst == "" || cr == nil`. With an active LocalRP session (non-nil
`waiting`): hijack, send the pending request on the `requests` channel,
block on the select; a callback carrying an error writes a 400 and
returns at once (no cleanup); a clean callback falls through; a timeout
writes a 502 and falls through; the fall-through runs the locked
waiting-map scan-and-delete and returns. With no session: record the
address in the blacklist and reply the default page. -/
def serveDecodeFailure (rpConfigured : Bool) (s : ServerState) (addr : String)
    (req : localRPCtrlSrvReq) (arrived : Option (Option String)) :
    ServerState × List DFEvent :=
  match s.localRP.waiting with
  | some w =>
      let enq := { s.localRP with requests := s.localRP.requests.map (· ++ [req]) }
      match arrived with
      | some (some e) =>
          ({ s with localRP := enq },
           [.hijack, .enqueue req, .selectWait, .write400 ("Error: " ++ e)])
      | some none =>
          ({ s with localRP := { enq with waiting := some (cleanupScan w req.conn) } },
           [.hijack, .enqueue req, .selectWait, .cleanupDelete])
      | none =>
          ({ s with localRP := { enq with waiting := some (cleanupScan w req.conn) } },
           [.hijack, .enqueue req, .selectWait, .write502, .cleanupDelete])
  | none =>
      ({ s with blacklist := abuseRecord s.blacklist addr },
       .recordAbuse addr :: replySomething rpConfigured)

/-- Does the event trace hold a blocking wait for a completion signal
strictly between the 502 write and the waiting-map cleanup? -/
def waitAfter502 (evs : List DFEvent) : Bool :=
  (((evs.dropWhile (fun e => decide (e ≠ DFEvent.write502))).drop 1).takeWhile
      (fun e => decide (e ≠ DFEvent.cleanupDelete))).any
    (fun e => decide (e = DFEvent.selectWait) || decide (e = DFEvent.waitCallbackAgain))

/-! ### The routing loop body (`startLocalRPControlServer`, lines 464–497)

One iteration of the single-consumer loop, on the request just received
from the channel. The 16 random bytes from `proxy.Cipher.Rand.Read` and
the random agent index from `pickAControlConn` are parameters. -/

inductive RouteEffect where
  /-- `return` on a poison entry (`req.end`), ending the loop. -/
  | loopEnd
  /-- `req.callback <- localRPCtrlSrvResp{err: …}`. -/
  | callbackErr (ch : Nat) (msg : String)
  /-- `go connw.Write(buf)` to the chosen agent's endpoint. -/
  | ctrlWrite (agentConn : Nat) (msg : List Byte)
  deriving DecidableEq, Repr

structure RouteResult where
  waiting : WaitingMap
  effects : List RouteEffect
  deriving DecidableEq, Repr

/-- One iteration of the routing loop, mirroring lines 467–494: a
poison entry ends the loop; a destination of 65535 or more bytes
(`len(req.dst)` is the Go string's byte length) answers the callback
with a "request too long" error and continues; otherwise build
`buf = token(16) || big-endian-uint32(len(rawReq)) || rawReq`, store
`waiting[hex(token)]`, pick an agent and write `buf` to it. -/
def routeStep (w : WaitingMap) (downConns : List Nat) (req : localRPCtrlSrvReq)
    (token : List Byte) (agentIdx : Nat) : RouteResult :=
  if req.endFlag then
    { waiting := w, effects := [.loopEnd] }
  else if 65535 ≤ goStrLen req.dst then
    { waiting := w, effects := [.callbackErr req.callback "request too long"] }
  else
    let buf := token ++ be32 req.rawReq.length ++ req.rawReq
    let localrpr := hexEncode token
    { waiting := mapInsert w localrpr { err := none, localrpr := localrpr, req := req },
      effects := [.ctrlWrite (downConns.getD agentIdx 0) buf] }

/-! ### Control registration (`startLocalRPControlServer`, lines 431–502) -/

inductive RegEvent where
  | writeDownstream (msg : String)
  | closeDownstream
  | startRoutingLoop
  | startBridge
  | startHeartbeat
  deriving DecidableEq, Repr

/-- The synchronous part of `startLocalRPControlServer` plus the
goroutine launches it performs, in program order. `writeOk` is whether
the initial `downstream.Write` succeeded. The write of
`"HTTP/1.1 200 OK\r\n\r\n"` happens first in every case; a failed write
or `proxy.DisableLRP` closes the socket and returns without touching
session state. Otherwise the agent lists, the `requests` channel and
the `waiting` map are lazily created, the agent is appended, and the
routing loop is started only for the first agent of a session. -/
def startLocalRPControlServer (disableLRP : Bool) (writeOk : Bool) (s : LocalRPState)
    (downstream : Nat) (connw : Nat) : LocalRPState × List RegEvent :=
  if ¬ writeOk then
    (s, [.writeDownstream "HTTP/1.1 200 OK\r\n\r\n", .closeDownstream])
  else if disableLRP then
    (s, [.writeDownstream "HTTP/1.1 200 OK\r\n\r\n", .closeDownstream])
  else
    let requests := match s.requests with
      | some q => some q
      | none => some []
    let waiting := match s.waiting with
      | some w => some w
      | none => some ([] : WaitingMap)
    let s1 : LocalRPState :=
      { downstreams := s.downstreams ++ [downstream]
        downConns := s.downConns ++ [connw]
        requests := requests
        waiting := waiting }
    (s1,
     [.writeDownstream "HTTP/1.1 200 OK\r\n\r\n"]
       ++ (if s1.downConns.length = 1 then [.startRoutingLoop] else [])
       ++ [.startBridge, .startHeartbeat])

/-! ### Heartbeat teardown (`startLocalRPControlServer`, lines 504–533) -/

inductive TeardownEvent where
  /-- `proxy.localRP.requests <- localRPCtrlSrvReq{end: true}`. -/
  | pushPoison
  /-- A send on a nil `requests` channel, which blocks forever in Go;
  the store is left as it stands. -/
  | blockedOnNilQueue
  | closeDownstream
  deriving DecidableEq, Repr

/-- The teardown that runs when an agent's heartbeat read or write
fails (lines 518–532): remove this agent's entries from both lists;
if no downstream remains, push the poison entry onto the `requests`
channel and nil out both the `waiting` map and the `requests` handle;
finally close the real downstream socket. A send on an already-nil
channel blocks forever, leaving the state untouched. -/
def heartbeatTeardown (s : LocalRPState) (connw : Nat) : LocalRPState × List TeardownEvent :=
  let s1 : LocalRPState :=
    match s.downConns.indexOf? connw with
    | some i =>
        { s with downstreams := s.downstreams.eraseIdx i
                 downConns := s.downConns.eraseIdx i }
    | none => s
  if s1.downstreams.isEmpty then
    match s1.requests with
    | some _ =>
        ({ s1 with requests := none, waiting := none },
         [.pushPoison, .closeDownstream])
    | none => (s1, [.blockedOnNilQueue])
  else (s1, [.closeDownstream])

/-! ### Waiting-map operations as a trace alphabet (for the
correlation-token lifecycle)

Each constructor is one code site that touches `proxy.localRP.waiting`
under the lock. -/

inductive LRPOp where
  /-- The routing loop's `waiting[localrpr] = …` (lines 486–491). -/
  | routeInsert (token : String) (req : localRPCtrlSrvReq)
  /-- The fulfillment path's locked lookup `waiting[dst]`
  (`ServeHTTP` lines 247–260); the map is read, never written. -/
  | fulfillLookup (dst : String)
  /-- The dispatcher's scan-and-delete (`ServeHTTP` lines 201–208). -/
  | dispatcherCleanup (conn : Nat)
  /-- Session teardown's `waiting = nil` (line 528). -/
  | teardownClear
  deriving DecidableEq, Repr

/-- Apply one operation to the `waiting` field. Inserting into a nil Go
map would panic, leaving the map unchanged; `none` stays `none`. -/
def applyLRPOp (w : Option WaitingMap) : LRPOp → Option WaitingMap
  | .routeInsert t req =>
      w.map (fun m => mapInsert m t { err := none, localrpr := t, req := req })
  | .fulfillLookup _ => w
  | .dispatcherCleanup c => w.map (fun m => cleanupScan m c)
  | .teardownClear => none

/-- Is a pending request currently bound to token `t`? -/
def tokenBound (w : Option WaitingMap) (t : String) : Bool :=
  match w with
  | some m => (m.lookup t).isSome
  | none => false

/-- The final `else` branch of the dispatch chain (lines 350–353):
`proxy.blacklist.Add(addr, nil); replySomething()`. -/
def serveElse (rpConfigured : Bool) (bl : List (String × Nat)) (addr : String) :
    List (String × Nat) × List DFEvent :=
  (abuseRecord bl addr, .recordAbuse addr :: replySomething rpConfigured)

/-! ## Supporting lemmas -/

theorem abuseHits_record (bl : List (String × Nat)) (addr : String) :
    abuseHits (abuseRecord bl addr) addr = abuseHits bl addr + 1 := by
  induction bl with
  | nil => simp [abuseRecord, abuseHits, List.lookup]
  | cons p rest ih =>
      obtain ⟨a, n⟩ := p
      by_cases h : a = addr
      · subst h
        simp [abuseRecord, abuseHits, List.lookup]
      · have h' : (addr == a) = false := beq_false_of_ne (fun hc => h hc.symm)
        simp only [abuseRecord, if_neg h]
        simp only [abuseHits, List.lookup, h'] at *
        exact ih

theorem authCheck_eq_contains (users : Users) (a : String) :
    authCheck users a = (users.map Prod.fst).contains a := by
  induction users with
  | nil => simp [authCheck, List.lookup]
  | cons p rest ih =>
      obtain ⟨k, v⟩ := p
      by_cases h : a = k
      · subst h
        simp [authCheck, List.lookup]
      · have h' : (a == k) = false := beq_false_of_ne h
        have hstep : authCheck ((k, v) :: rest) a = authCheck rest a := by
          simp [authCheck, List.lookup, h']
        rw [hstep, ih]
        simp [List.contains_cons, h']

theorem lookup_mapInsert (m : WaitingMap) (k t : String) (v : localRPCtrlSrvResp) :
    (mapInsert m k v).lookup t = if t = k then some v else m.lookup t := by
  induction m with
  | nil =>
      by_cases h : t = k
      · simp [mapInsert, List.lookup, h]
      · simp [mapInsert, List.lookup, h, beq_false_of_ne h]
  | cons p rest ih =>
      obtain ⟨k', v'⟩ := p
      by_cases h1 : k' = k
      · subst h1
        by_cases h2 : t = k'
        · simp [mapInsert, List.lookup, h2]
        · simp [mapInsert, List.lookup, h2, beq_false_of_ne h2]
      · by_cases h2 : t = k'
        · subst h2
          have hk : t ≠ k := fun hc => h1 (hc ▸ rfl)
          simp [mapInsert, List.lookup, h1, hk]
        · simp [mapInsert, List.lookup, h1, h2, beq_false_of_ne h2, ih]

theorem mapInsert_keys (m : WaitingMap) (k : String) (v : localRPCtrlSrvResp) :
    (mapInsert m k v).map Prod.fst =
      if k ∈ m.map Prod.fst then m.map Prod.fst else m.map Prod.fst ++ [k] := by
  induction m with
  | nil => simp [mapInsert]
  | cons p rest ih =>
      obtain ⟨k', v'⟩ := p
      by_cases h : k' = k
      · subst h
        simp [mapInsert]
      · have h' : k ≠ k' := fun hc => h hc.symm
        by_cases hm : k ∈ rest.map Prod.fst <;>
          simp [mapInsert, h, h', hm, ih]

theorem cleanupScan_sublist (m : WaitingMap) (c : Nat) :
    (cleanupScan m c).Sublist m := by
  induction m with
  | nil => simp [cleanupScan]
  | cons p rest ih =>
      obtain ⟨k, v⟩ := p
      by_cases h : v.req.conn = c
      · simp [cleanupScan, h]
      · simpa [cleanupScan, h] using ih.cons₂ (k, v)

theorem strBytes_replicate (n : Nat) :
    strBytes (String.mk (List.replicate n 'a')) = List.replicate n 97 := by
  induction n with
  | zero => rfl
  | succ k ih =>
      simp only [strBytes, List.replicate_succ, List.map_cons, List.flatten_cons] at *
      rw [ih]
      rfl

theorem goStrLen_replicate (n : Nat) :
    goStrLen (String.mk (List.replicate n 'a')) = n := by
  simp [goStrLen, strBytes_replicate]

theorem be32_length (n : Nat) : (be32 n).length = 4 := by
  simp [be32]

theorem word32_be32 (n : Nat) (rest : List Byte) (h : n < 2 ^ 32) :
    word32 (be32 n ++ rest) = n := by
  simp only [be32, word32, List.cons_append]
  omega

/-- Sanity check for `waitAfter502`: it does detect a completion wait
placed between the 502 write and the cleanup. -/
theorem waitAfter502_detects_wait :
    waitAfter502 [.hijack, .selectWait, .write502, .waitCallbackAgain, .cleanupDelete] = true ∧
    waitAfter502 [.hijack, .selectWait, .write502, .selectWait, .cleanupDelete] = true := by
  exact ⟨rfl, rfl⟩

/-! ## Claims -/

/-- C3: for every successfully decoded ClientRequest, `ServeHTTP`
selects exactly one action by testing the option bitset in the fixed
precedence DNS, then LocalRP, then Connect, then Forward; a request
with none of these options set is rejected (AbuseGuard record plus
default page); an earlier option being set means the later options are
never consulted (changing them cannot change the chosen action). -/
theorem dispatch_precedence :
    (∀ o : Options, dispatch o = .dns ↔ o.doDNS = true) ∧
    (∀ o : Options, dispatch o = .localRP ↔ (o.doDNS = false ∧ o.doLocalRP = true)) ∧
    (∀ o : Options, dispatch o = .connect ↔
      (o.doDNS = false ∧ o.doLocalRP = false ∧ o.doConnect = true)) ∧
    (∀ o : Options, dispatch o = .forward ↔
      (o.doDNS = false ∧ o.doLocalRP = false ∧ o.doConnect = false ∧ o.doForward = true)) ∧
    (∀ o : Options, dispatch o = .reject ↔
      (o.doDNS = false ∧ o.doLocalRP = false ∧ o.doConnect = false ∧ o.doForward = false)) ∧
    (∀ (o : Options) (b1 b2 b3 : Bool), o.doDNS = true →
      dispatch { o with doLocalRP := b1, doConnect := b2, doForward := b3 } = .dns) ∧
    (∀ (o : Options) (b2 b3 : Bool), o.doDNS = false → o.doLocalRP = true →
      dispatch { o with doConnect := b2, doForward := b3 } = .localRP) ∧
    (∀ (o : Options) (b3 : Bool), o.doDNS = false → o.doLocalRP = false →
      o.doConnect = true → dispatch { o with doForward := b3 } = .connect) ∧
    (∀ (rp : Bool) (bl : List (String × Nat)) (addr : String),
      abuseHits (serveElse rp bl addr).1 addr = abuseHits bl addr + 1 ∧
      (serveElse rp bl addr).2 =
        .recordAbuse addr :: (if rp then [.passthrough] else [.page404])) := by
  refine ⟨?_, ?_, ?_, ?_, ?_, ?_, ?_, ?_, ?_⟩
  · rintro ⟨d, l, c, f, u, m, ws, p⟩
    cases d <;> cases l <;> cases c <;> cases f <;> simp [dispatch]
  · rintro ⟨d, l, c, f, u, m, ws, p⟩
    cases d <;> cases l <;> cases c <;> cases f <;> simp [dispatch]
  · rintro ⟨d, l, c, f, u, m, ws, p⟩
    cases d <;> cases l <;> cases c <;> cases f <;> simp [dispatch]
  · rintro ⟨d, l, c, f, u, m, ws, p⟩
    cases d <;> cases l <;> cases c <;> cases f <;> simp [dispatch]
  · rintro ⟨d, l, c, f, u, m, ws, p⟩
    cases d <;> cases l <;> cases c <;> cases f <;> simp [dispatch]
  · rintro ⟨d, l, c, f, u, m, ws, p⟩ b1 b2 b3 h
    subst h
    simp [dispatch]
  · rintro ⟨d, l, c, f, u, m, ws, p⟩ b2 b3 h1 h2
    subst h1; subst h2
    simp [dispatch]
  · rintro ⟨d, l, c, f, u, m, ws, p⟩ b3 h1 h2 h3
    subst h1; subst h2; subst h3
    simp [dispatch]
  · intro rp bl addr
    exact ⟨abuseHits_record bl addr, by cases rp <;> rfl⟩

/-- C3 witness: at a concrete option set with only Connect and Forward
set, the dispatcher picks Connect; with nothing set it rejects, the
hit count rises by one and the 404 page is served. -/
theorem dispatch_precedence_witness :
    dispatch ⟨false, false, true, true, false, false, false, false⟩ = .connect ∧
    dispatch ⟨false, false, false, false, true, true, true, true⟩ = .reject ∧
    abuseHits (serveElse false [] "1.2.3.4").1 "1.2.3.4" = 0 + 1 ∧
    (serveElse false [] "1.2.3.4").2 = [.recordAbuse "1.2.3.4", .page404] := by
  refine ⟨?_, ?_, ?_, ?_⟩
  · exact (dispatch_precedence.2.2.1 ⟨false, false, true, true, false, false, false, false⟩).2
      ⟨rfl, rfl, rfl⟩
  · exact (dispatch_precedence.2.2.2.2.1
      ⟨false, false, false, false, true, true, true, true⟩).2 ⟨rfl, rfl, rfl, rfl⟩
  · exact (dispatch_precedence.2.2.2.2.2.2.2.2 false [] "1.2.3.4").1
  · exact (dispatch_precedence.2.2.2.2.2.2.2.2 false [] "1.2.3.4").2

/-- C9: with multi-user auth configured, `auth` accepts exactly the
tokens that are keys of the `Users` map, and the per-user
configuration values (`UserConfig.Auth`, throttling) are never
consulted: two user maps with the same keys accept the same tokens. -/
theorem auth_membership_only :
    (∀ (users : Users) (a : String),
        authCheck users a = true ↔ a ∈ users.map Prod.fst) ∧
    (∀ (users users' : Users) (a : String),
        users.map Prod.fst = users'.map Prod.fst →
        authCheck users a = authCheck users' a) := by
  constructor
  · intro users a
    rw [authCheck_eq_contains]
    exact List.elem_iff
  · intro users users' a h
    rw [authCheck_eq_contains, authCheck_eq_contains, h]

/-- A concrete LocalRP-active server state and pending request used to
exercise the decode-failure path. -/
def c1State : ServerState :=
  { blacklist := []
    localRP := { downstreams := [1], downConns := [2], requests := some [], waiting := some [] } }

def c1Req : localRPCtrlSrvReq :=
  { dst := "", endFlag := false, conn := 9, callback := 7, rawReq := [72, 105] }

/-- C1 counterexample: at a concrete inbound request that fails decode
during an active LocalRP session, when the timeout arm of the select
fires, the emitted action sequence is hijack, enqueue, one select wait,
the 502 write, then immediately the waiting-map cleanup — there is no
wait for an eventual completion signal between the 502 write and the
cleanup, contrary to the claim. -/
theorem serveDecodeFailure_timeout_no_second_wait :
    (serveDecodeFailure false c1State "1.2.3.4" c1Req none).2 =
      [.hijack, .enqueue c1Req, .selectWait, .write502, .cleanupDelete] ∧
    waitAfter502 (serveDecodeFailure false c1State "1.2.3.4" c1Req none).2 = false := by
  exact ⟨rfl, rfl⟩

/-- C1 amended: for every inbound request that fails envelope decode
while a LocalRP session is active, the dispatcher enqueues a
PendingRequest and blocks once on a select between "completion signal
received" and "timeout elapsed"; when the timeout elapses first, it
writes the 502 response and proceeds directly to the waiting-map
cleanup and returns, without waiting for a further completion signal. -/
theorem serveDecodeFailure_timeout_path :
    ∀ (rp : Bool) (s : ServerState) (addr : String) (req : localRPCtrlSrvReq)
      (w : WaitingMap) (arrived : Option (Option String)),
      s.localRP.waiting = some w →
      (serveDecodeFailure rp s addr req arrived).2.take 3 =
        [.hijack, .enqueue req, .selectWait] ∧
      (arrived = none →
        (serveDecodeFailure rp s addr req arrived).2 =
          [.hijack, .enqueue req, .selectWait, .write502, .cleanupDelete] ∧
        waitAfter502 (serveDecodeFailure rp s addr req arrived).2 = false) := by
  intro rp s addr req w arrived hw
  rcases arrived with _ | e
  · refine ⟨?_, fun _ => ⟨?_, ?_⟩⟩ <;> simp [serveDecodeFailure, hw, waitAfter502]
  · rcases e with _ | msg <;>
      exact ⟨by simp [serveDecodeFailure, hw], fun hc => by cases hc⟩

/-- C1 witness: the amended theorem applied at the concrete state. -/
theorem serveDecodeFailure_timeout_path_witness :
    c1State.localRP.waiting = some [] ∧
    (serveDecodeFailure false c1State "1.2.3.4" c1Req none).2.take 3 =
      [.hijack, .enqueue c1Req, .selectWait] := by
  have h := serveDecodeFailure_timeout_path false c1State "1.2.3.4" c1Req [] none rfl
  exact ⟨rfl, h.1⟩

/-- A concrete waiting-map binding used to exercise the token-removal
discipline. -/
def c2Req : localRPCtrlSrvReq :=
  { dst := "example.com:80", endFlag := false, conn := 1, callback := 2, rawReq := [] }

def c2Resp : localRPCtrlSrvResp := { err := none, localrpr := "ab12", req := c2Req }

def c2Resp' : localRPCtrlSrvResp := { err := none, localrpr := "cd34", req := c2Req }

def c2Map : Option WaitingMap := some [("ab12", c2Resp)]

/-- The removal discipline asserted by the claim: a token leaves the
waiting map only at the fulfilling follow-up connection's operation or
at session teardown. -/
def removalOnlyByFulfillmentOrTeardown : Prop :=
  ∀ (w : Option WaitingMap) (op : LRPOp) (t : String),
    tokenBound w t = true → tokenBound (applyLRPOp w op) t = false →
    (∃ d, op = LRPOp.fulfillLookup d) ∨ op = LRPOp.teardownClear

/-- C2 counterexample: a token bound for a pending request that timed
out is removed by the originating dispatcher's scan-and-delete
(`ServeHTTP` lines 201–208) — an operation that is neither the
fulfilling follow-up connection's lookup (which never deletes) nor
session teardown — so the claimed removal discipline is false. -/
theorem waitingMap_removal_counterexample :
    tokenBound c2Map "ab12" = true ∧
    tokenBound (applyLRPOp c2Map (.dispatcherCleanup 1)) "ab12" = false ∧
    ¬ removalOnlyByFulfillmentOrTeardown := by
  refine ⟨rfl, rfl, ?_⟩
  intro h
  rcases h c2Map (.dispatcherCleanup 1) "ab12" rfl rfl with ⟨d, hd⟩ | hd <;>
    exact LRPOp.noConfusion hd

/-- C2 amended: at most one PendingRequest is bound to a token while it
is in the waiting map (map insertion overwrites, and distinct keys stay
distinct under every operation), and a token's entry is removed from
the map only by the originating dispatcher goroutine's cleanup scan
(after completion or timeout) or by session teardown; the fulfilling
follow-up connection reads the entry without removing it. -/
theorem waitingMap_removal_only_cleanup_or_teardown :
    (∀ (w : Option WaitingMap) (op : LRPOp) (t : String),
        tokenBound w t = true → tokenBound (applyLRPOp w op) t = false →
        (∃ c, op = LRPOp.dispatcherCleanup c) ∨ op = LRPOp.teardownClear) ∧
    (∀ (w : Option WaitingMap) (d : String), applyLRPOp w (.fulfillLookup d) = w) ∧
    (∀ (m : WaitingMap) (k : String) (v : localRPCtrlSrvResp),
        (m.map Prod.fst).Nodup → ((mapInsert m k v).map Prod.fst).Nodup) ∧
    (∀ (m : WaitingMap) (c : Nat),
        (m.map Prod.fst).Nodup → ((cleanupScan m c).map Prod.fst).Nodup) := by
  refine ⟨?_, fun w d => rfl, ?_, ?_⟩
  · intro w op t h1 h2
    cases op with
    | routeInsert tk req =>
        exfalso
        cases w with
        | none => simp [tokenBound] at h1
        | some m =>
            have h2' : (List.lookup t
                (mapInsert m tk { err := none, localrpr := tk, req := req })).isSome = false := by
              simpa [applyLRPOp, tokenBound] using h2
            rw [lookup_mapInsert] at h2'
            simp only [tokenBound] at h1
            by_cases ht : t = tk
            · simp [ht] at h2'
            · rw [if_neg ht] at h2'
              rw [h2'] at h1
              cases h1
    | fulfillLookup d =>
        exfalso
        simp only [applyLRPOp] at h2
        rw [h2] at h1
        cases h1
    | dispatcherCleanup c => exact Or.inl ⟨c, rfl⟩
    | teardownClear => exact Or.inr rfl
  · intro m k v h
    rw [mapInsert_keys]
    by_cases hm : k ∈ m.map Prod.fst
    · simpa [hm] using h
    · simp only [hm, if_false]
      rw [List.nodup_append]
      exact ⟨h, List.nodup_singleton _, by simpa [List.disjoint_singleton] using hm⟩
  · intro m c h
    exact h.sublist ((cleanupScan_sublist m c).map Prod.fst)

/-- C2 witness: the amended theorem applied at the concrete binding —
the dispatcher's cleanup is one of the two permitted removal sites, the
fulfillment lookup leaves the map untouched, and key uniqueness is
preserved by a concrete insertion. -/
theorem waitingMap_removal_only_cleanup_or_teardown_witness :
    ((∃ c, LRPOp.dispatcherCleanup 1 = LRPOp.dispatcherCleanup c) ∨
        LRPOp.dispatcherCleanup 1 = LRPOp.teardownClear) ∧
    applyLRPOp c2Map (.fulfillLookup "ab12") = c2Map ∧
    (([("ab12", c2Resp)].map Prod.fst).Nodup →
      ((mapInsert [("ab12", c2Resp)] "cd34" c2Resp').map Prod.fst).Nodup) := by
  refine ⟨?_, ?_, ?_⟩
  · exact waitingMap_removal_only_cleanup_or_teardown.1 c2Map (.dispatcherCleanup 1) "ab12" rfl rfl
  · exact waitingMap_removal_only_cleanup_or_teardown.2.1 c2Map "ab12"
  · exact waitingMap_removal_only_cleanup_or_teardown.2.2.1 _ "cd34" _

/-- C9 witness: a token present as a key passes even when its
`UserConfig` is arbitrary, and changing every `UserConfig` value while
keeping the keys leaves the decision unchanged; an absent token fails. -/
theorem auth_membership_only_witness :
    authCheck [("tok", ⟨"other", 5, 9⟩)] "tok" = true ∧
    authCheck [("tok", ⟨"other", 5, 9⟩)] "tok" =
      authCheck [("tok", ⟨"", 0, 0⟩)] "tok" ∧
    ¬ authCheck [("tok", ⟨"other", 5, 9⟩)] "bad" = true := by
  refine ⟨?_, ?_, ?_⟩
  · exact (auth_membership_only.1 [("tok", ⟨"other", 5, 9⟩)] "tok").2 (by decide)
  · exact auth_membership_only.2 [("tok", ⟨"other", 5, 9⟩)] [("tok", ⟨"", 0, 0⟩)] "tok" rfl
  · intro h
    have := (auth_membership_only.1 [("tok", ⟨"other", 5, 9⟩)] "bad").1 h
    simp at this

/-- C4: when the last registered agent's heartbeat fails, teardown
pushes the poison entry, clears the waiting map and queue handle; from
that state every decode-failure request takes the plain invalid path
(AbuseGuard record plus default page) without being queued, and a
further teardown attempt leaves the torn-down state unchanged, so the
state is terminal until a new agent registers. -/
theorem heartbeatTeardown_last_agent :
    ∀ (s : LocalRPState) (c d : Nat) (q : List localRPCtrlSrvReq) (w : WaitingMap),
      s.downstreams = [d] → s.downConns = [c] → s.requests = some q → s.waiting = some w →
      (heartbeatTeardown s c).1 =
        { downstreams := [], downConns := [], requests := none, waiting := none } ∧
      (heartbeatTeardown s c).2 = [.pushPoison, .closeDownstream] ∧
      (∀ (rp : Bool) (bl : List (String × Nat)) (addr : String)
          (req : localRPCtrlSrvReq) (arrived : Option (Option String)),
        (serveDecodeFailure rp ⟨bl, (heartbeatTeardown s c).1⟩ addr req arrived).2 =
          .recordAbuse addr :: (if rp then [.passthrough] else [.page404]) ∧
        (serveDecodeFailure rp ⟨bl, (heartbeatTeardown s c).1⟩ addr req arrived).1.localRP =
          (heartbeatTeardown s c).1 ∧
        (∀ qq, DFEvent.enqueue qq ∉
          (serveDecodeFailure rp ⟨bl, (heartbeatTeardown s c).1⟩ addr req arrived).2)) ∧
      (∀ c', (heartbeatTeardown (heartbeatTeardown s c).1 c').1 = (heartbeatTeardown s c).1) := by
  intro s c d q w hd hc hq hw
  have hstate : (heartbeatTeardown s c).1 =
      { downstreams := [], downConns := [], requests := none, waiting := none } := by
    simp [heartbeatTeardown, hd, hc, hq, List.indexOf?]
  have hevs : (heartbeatTeardown s c).2 = [.pushPoison, .closeDownstream] := by
    simp [heartbeatTeardown, hd, hc, hq, List.indexOf?]
  refine ⟨hstate, hevs, ?_, ?_⟩
  · intro rp bl addr req arrived
    rw [hstate]
    refine ⟨rfl, rfl, ?_⟩
    intro qq hmem
    have hshape : (serveDecodeFailure rp
        ⟨bl, { downstreams := [], downConns := [], requests := none, waiting := none }⟩
        addr req arrived).2 =
        DFEvent.recordAbuse addr ::
          (if rp then [DFEvent.passthrough] else [DFEvent.page404]) := by
      cases rp <;> rfl
    rw [hshape] at hmem
    cases rp <;> rcases hmem with _ | ⟨_, _ | ⟨_, h⟩⟩ <;> cases h
  · intro c'
    rw [hstate]
    rfl

/-- C4 witness: the theorem applied at a concrete one-agent session. -/
theorem heartbeatTeardown_last_agent_witness :
    (heartbeatTeardown ⟨[4], [6], some [], some []⟩ 6).1 =
      { downstreams := [], downConns := [], requests := none, waiting := none } ∧
    (heartbeatTeardown ⟨[4], [6], some [], some []⟩ 6).2 =
      [.pushPoison, .closeDownstream] := by
  have h := heartbeatTeardown_last_agent ⟨[4], [6], some [], some []⟩ 6 4 [] [] rfl rfl rfl rfl
  exact ⟨h.1, h.2.1⟩

/-- C5: a pending request whose destination is 65535 bytes or longer is
answered with a "request too long" error on its completion channel and
the loop continues: the waiting map is untouched (no token is bound),
no control message is written to any agent, and the loop does not
terminate on it. -/
theorem routeStep_oversized_dst :
    ∀ (w : WaitingMap) (downConns : List Nat) (req : localRPCtrlSrvReq)
      (token : List Byte) (agentIdx : Nat),
      req.endFlag = false → 65535 ≤ goStrLen req.dst →
      (routeStep w downConns req token agentIdx).waiting = w ∧
      (routeStep w downConns req token agentIdx).effects =
        [.callbackErr req.callback "request too long"] ∧
      (∀ (a : Nat) (m : List Byte),
        RouteEffect.ctrlWrite a m ∉ (routeStep w downConns req token agentIdx).effects) ∧
      RouteEffect.loopEnd ∉ (routeStep w downConns req token agentIdx).effects := by
  intro w dc req token idx hend hlen
  have hr : routeStep w dc req token idx =
      { waiting := w, effects := [.callbackErr req.callback "request too long"] } := by
    simp [routeStep, hend, hlen]
  rw [hr]
  refine ⟨rfl, rfl, ?_, ?_⟩
  · intro a m hmem
    rcases hmem with _ | ⟨_, hmem⟩
    cases hmem
  · intro hmem
    rcases hmem with _ | ⟨_, hmem⟩
    cases hmem

/-- C5 witness: a concrete destination of exactly 65535 bytes fails
with "request too long" and leaves the waiting map alone. -/
theorem routeStep_oversized_dst_witness :
    65535 ≤ goStrLen (String.mk (List.replicate 65535 'a')) ∧
    (routeStep [] [5] ⟨String.mk (List.replicate 65535 'a'), false, 9, 7, []⟩
        (List.replicate 16 0) 0).waiting = [] ∧
    (routeStep [] [5] ⟨String.mk (List.replicate 65535 'a'), false, 9, 7, []⟩
        (List.replicate 16 0) 0).effects = [.callbackErr 7 "request too long"] := by
  have hlen : 65535 ≤ goStrLen (String.mk (List.replicate 65535 'a')) := by
    rw [goStrLen_replicate]
  have h := routeStep_oversized_dst [] [5]
    ⟨String.mk (List.replicate 65535 'a'), false, 9, 7, []⟩ (List.replicate 16 0) 0 rfl hlen
  exact ⟨hlen, h.1, h.2.1⟩

/-- C6: for every pending request the routing loop dispatches, the
control message written to the chosen agent is exactly the 16 token
bytes (whose hex encoding is the key bound in the waiting map),
followed by the 4-byte big-endian length of the captured raw request,
followed by the raw request bytes, with total length 20 plus the raw
request length. -/
theorem routeStep_control_message :
    ∀ (w : WaitingMap) (downConns : List Nat) (req : localRPCtrlSrvReq)
      (token : List Byte) (agentIdx : Nat),
      req.endFlag = false → goStrLen req.dst < 65535 → token.length = 16 →
      req.rawReq.length < 2 ^ 32 →
      ∃ msg : List Byte,
        (routeStep w downConns req token agentIdx).effects =
          [.ctrlWrite (downConns.getD agentIdx 0) msg] ∧
        msg = token ++ be32 req.rawReq.length ++ req.rawReq ∧
        msg.length = 20 + req.rawReq.length ∧
        msg.take 16 = token ∧
        word32 (msg.drop 16) = req.rawReq.length ∧
        msg.drop 20 = req.rawReq ∧
        (routeStep w downConns req token agentIdx).waiting =
          mapInsert w (hexEncode token)
            { err := none, localrpr := hexEncode token, req := req } ∧
        tokenBound (some (routeStep w downConns req token agentIdx).waiting)
          (hexEncode token) = true := by
  intro w dc req token idx hend hlen htok hraw
  have hnl : ¬ 65535 ≤ goStrLen req.dst := by omega
  have hwq : (routeStep w dc req token idx).waiting =
      mapInsert w (hexEncode token) { err := none, localrpr := hexEncode token, req := req } := by
    simp [routeStep, hend, hnl]
  refine ⟨token ++ be32 req.rawReq.length ++ req.rawReq, ?_, rfl, ?_, ?_, ?_, ?_, hwq, ?_⟩
  · simp [routeStep, hend, hnl]
  · simp [be32, htok]
    omega
  · rw [List.append_assoc, ← htok, List.take_left]
  · rw [List.append_assoc, ← htok, List.drop_left]
    exact word32_be32 _ _ hraw
  · have h20 : (token ++ be32 req.rawReq.length).length = 20 := by
      simp [be32, htok]
    rw [List.append_assoc, ← List.append_assoc, ← h20, List.drop_left]
  · rw [hwq]
    simp [tokenBound, lookup_mapInsert]

/-- C6 witness: the theorem applied at a concrete token and raw
request; the message is the token, the big-endian length 3, then the
three raw bytes, 23 bytes in all, and the hex key is bound. -/
theorem routeStep_control_message_witness :
    ∃ msg : List Byte,
      (routeStep [] [5] ⟨"example.com:80", false, 9, 7, [10, 20, 30]⟩
          [0, 1, 2, 3, 4, 5, 6, 7, 8, 9, 10, 11, 12, 13, 14, 255] 0).effects =
        [.ctrlWrite 5 msg] ∧
      msg = [0, 1, 2, 3, 4, 5, 6, 7, 8, 9, 10, 11, 12, 13, 14, 255]
          ++ be32 3 ++ [10, 20, 30] ∧
      msg.length = 20 + 3 ∧
      msg.take 16 = [0, 1, 2, 3, 4, 5, 6, 7, 8, 9, 10, 11, 12, 13, 14, 255] ∧
      word32 (msg.drop 16) = 3 ∧
      msg.drop 20 = [10, 20, 30] := by
  have h := routeStep_control_message [] [5] ⟨"example.com:80", false, 9, 7, [10, 20, 30]⟩
    [0, 1, 2, 3, 4, 5, 6, 7, 8, 9, 10, 11, 12, 13, 14, 255] 0 rfl (by decide) rfl (by decide)
  obtain ⟨msg, h1, h2, h3, h4, h5, h6, _⟩ := h
  exact ⟨msg, h1, h2, h3, h4, h5, h6⟩

/-- C7: a request whose envelope fails to decode while no LocalRP
session is active records the remote address in AbuseGuard, increasing
its hit count by exactly 1, and returns the default page (the 404 page
or the configured passthrough), never a protocol-level error response
and never an enqueue. -/
theorem serveDecodeFailure_no_session :
    ∀ (rp : Bool) (s : ServerState) (addr : String) (req : localRPCtrlSrvReq)
      (arrived : Option (Option String)),
      s.localRP.waiting = none →
      abuseHits (serveDecodeFailure rp s addr req arrived).1.blacklist addr =
        abuseHits s.blacklist addr + 1 ∧
      (serveDecodeFailure rp s addr req arrived).2 =
        .recordAbuse addr :: (if rp then [.passthrough] else [.page404]) ∧
      (serveDecodeFailure rp s addr req arrived).1.localRP = s.localRP ∧
      (∀ m, DFEvent.write400 m ∉ (serveDecodeFailure rp s addr req arrived).2) ∧
      DFEvent.write502 ∉ (serveDecodeFailure rp s addr req arrived).2 ∧
      (∀ q, DFEvent.enqueue q ∉ (serveDecodeFailure rp s addr req arrived).2) := by
  intro rp s addr req arrived hw
  have hr : serveDecodeFailure rp s addr req arrived =
      ({ s with blacklist := abuseRecord s.blacklist addr },
        DFEvent.recordAbuse addr :: replySomething rp) := by
    simp [serveDecodeFailure, hw]
  rw [hr]
  have hrs : replySomething rp = if rp then [DFEvent.passthrough] else [DFEvent.page404] := rfl
  refine ⟨abuseHits_record s.blacklist addr, by rw [hrs], rfl, ?_, ?_, ?_⟩
  · intro m hmem
    rw [hrs] at hmem
    cases rp <;> rcases hmem with _ | ⟨_, _ | ⟨_, h⟩⟩ <;> cases h
  · intro hmem
    rw [hrs] at hmem
    cases rp <;> rcases hmem with _ | ⟨_, _ | ⟨_, h⟩⟩ <;> cases h
  · intro q hmem
    rw [hrs] at hmem
    cases rp <;> rcases hmem with _ | ⟨_, _ | ⟨_, h⟩⟩ <;> cases h

/-- C7 witness: at a concrete no-session state the hit count of the
address goes from 0 to 1 and the 404 page is served. -/
theorem serveDecodeFailure_no_session_witness :
    abuseHits (serveDecodeFailure false ⟨[], ⟨[], [], none, none⟩⟩ "9.9.9.9" c1Req
        none).1.blacklist "9.9.9.9" = 0 + 1 ∧
    (serveDecodeFailure false ⟨[], ⟨[], [], none, none⟩⟩ "9.9.9.9" c1Req none).2 =
      [.recordAbuse "9.9.9.9", .page404] := by
  have h := serveDecodeFailure_no_session false ⟨[], ⟨[], [], none, none⟩⟩ "9.9.9.9" c1Req none rfl
  exact ⟨h.1, h.2.1⟩

set_option maxRecDepth 100000 in
/-- C8: a request with the WebSocket option set is answered with a 101
Switching Protocols response whose `Sec-WebSocket-Accept` value is the
base64 encoding of the SHA-1 of the client's `Sec-WebSocket-Key`
concatenated with the GUID 258EAFA5-E914-47DA-95CA-C5AB0DC85B11; on the
key dGhlIHNhbXBsZSBub25jZQ== the accept value is
s3pPLMBiTxaQ9kYGzzhZRbK+xOo=. -/
theorem replyGood_websocket_accept :
    (∀ (o : Options) (key date : String), o.doWebSocket = true →
      replyGood o key date =
        "HTTP/1.1 101 Switching Protocols\r\nUpgrade: websocket\r\nConnection: upgrade\r\nSec-WebSocket-Accept: "
          ++ base64Encode (sha1Sum (strBytes (key ++ "258EAFA5-E914-47DA-95CA-C5AB0DC85B11")))
          ++ "\r\n\r\n") ∧
    wsAccept "dGhlIHNhbXBsZSBub25jZQ==" = "s3pPLMBiTxaQ9kYGzzhZRbK+xOo=" := by
  constructor
  · intro o key date h
    simp [replyGood, h, wsAccept, wsGUID]
  · rfl

set_option maxRecDepth 100000 in
/-- C8 witness: the full response written for the RFC6455 sample key. -/
theorem replyGood_websocket_accept_witness :
    replyGood ⟨false, false, false, false, false, false, true, false⟩
        "dGhlIHNhbXBsZSBub25jZQ==" "d" =
      "HTTP/1.1 101 Switching Protocols\r\nUpgrade: websocket\r\nConnection: upgrade\r\nSec-WebSocket-Accept: "
        ++ "s3pPLMBiTxaQ9kYGzzhZRbK+xOo=" ++ "\r\n\r\n" := by
  rw [replyGood_websocket_accept.1 ⟨false, false, false, false, false, false, true, false⟩
    "dGhlIHNhbXBsZSBub25jZQ==" "d" rfl, ← replyGood_websocket_accept.2]
  rfl

/-- C10: a control-registration connection arriving while LocalRP is
administratively disabled is first answered with the success line and
only then closed, and no session state is modified: no agent is
appended and the queue, waiting map, routing loop and heartbeat task
are not created. -/
theorem startLocalRPControlServer_disabled :
    ∀ (s : LocalRPState) (downstream connw : Nat),
      (startLocalRPControlServer true true s downstream connw).1 = s ∧
      (startLocalRPControlServer true true s downstream connw).2 =
        [.writeDownstream "HTTP/1.1 200 OK\r\n\r\n", .closeDownstream] ∧
      RegEvent.startRoutingLoop ∉ (startLocalRPControlServer true true s downstream connw).2 ∧
      RegEvent.startHeartbeat ∉ (startLocalRPControlServer true true s downstream connw).2 ∧
      RegEvent.startBridge ∉ (startLocalRPControlServer true true s downstream connw).2 := by
  intro s downstream connw
  refine ⟨rfl, rfl, ?_, ?_, ?_⟩ <;> intro hmem <;>
    rcases hmem with _ | ⟨_, _ | ⟨_, h⟩⟩ <;> cases h

end Goflyway
